import Mathlib

/-!
Verification development for the window-management engine of
khsarvar.github.io (src/script.js).

The JavaScript WindowManager class is shallowly embedded below: pixel
coordinates become Int (the claims under scrutiny concern clamping and
ordering, for which integer pixels are faithful; the one fractional JS
computation, rect.width / 2 at the maximized-drag re-anchor, is modelled
with integer division and affects no claim's conclusion), the registry
this.windows becomes an association list keyed by app name, DOM class
flags (active, maximized, minimized) become Booleans, and the inline
style geometry (left, top, width, height) plus zIndex become Int fields.
Every operation is a total function from manager state to manager state;
the JS guards of the form if (!windowData) return are the none branches
of the lookups.
-/

/-- Ambient geometry configuration: the viewport size read from
document.documentElement, the menu-bar height and the viewport padding
held on the manager (both are set at construction and never mutated, so
they are lifted into this environment record). -/
structure Env where
  viewportWidth : Int
  viewportHeight : Int
  menuBarHeight : Int
  padding : Int
deriving DecidableEq, Repr

/-- Lifecycle state stored in windowData.state; the source stores the
strings closed, open, minimized, maximized (the value maximized is listed
in the source comment but is never assigned by any operation). -/
inductive WState where
  | closed
  | opened
  | minimized
  | maximized
deriving DecidableEq, Repr

/-- One registered window: the registry record (state, originalPosition,
originalSize) together with its visual surface, i.e. the element's class
flags, inline geometry and z-index. The hidden flag stands for
getComputedStyle(element).display being none; it is owned by the styling
layer (not in src/) and is never written by the core. -/
structure Win where
  state : WState
  isActive : Bool
  isMaximized : Bool
  isMinimized : Bool
  hidden : Bool
  left : Int
  top : Int
  width : Int
  height : Int
  zIndex : Int
  originalPosition : Int × Int
  originalSize : Int × Int
deriving DecidableEq, Repr

/-- A measured screen rectangle (getBoundingClientRect). -/
structure Rect where
  left : Int
  top : Int
  width : Int
  height : Int
deriving DecidableEq, Repr

/-- One of the 8 resize handle directions. -/
inductive Dir where
  | top
  | right
  | bottom
  | left
  | topLeft
  | topRight
  | bottomLeft
  | bottomRight
deriving DecidableEq, Repr

/-- Anchor captured at resize start (this.resizeStart). -/
structure RStart where
  x : Int
  y : Int
  width : Int
  height : Int
  left : Int
  top : Int
deriving DecidableEq, Repr

/-- The WindowManager instance state: registry, focus bookkeeping,
stacking counter and the ephemeral drag/resize session fields, plus the
dock icons' active classes (keyed by app name; a window may lack a dock
icon, in which case updateDockIcon is a no-op on it). -/
structure Manager where
  windows : List (String × Win)
  activeWindow : Option String
  maxZIndex : Int
  dragging : Bool
  dragOffset : Int × Int
  currentDraggedWindow : Option String
  resizing : Bool
  resizeTarget : Option String
  resizeDirection : Option Dir
  resizeStart : Option RStart
  dockIcons : List (String × Bool)
deriving DecidableEq, Repr

/-- Math.min(Math.max(value, min), max), the clamp helper of the source. -/
def clamp (value lo hi : Int) : Int :=
  min (max value lo) hi

/-- String.includes tests of the source, specialised to the 8 direction
tags: direction.includes with argument left. -/
def Dir.hasLeft : Dir → Bool
  | .left | .topLeft | .bottomLeft => true
  | _ => false

/-- Membership test direction.includes with argument right. -/
def Dir.hasRight : Dir → Bool
  | .right | .topRight | .bottomRight => true
  | _ => false

/-- Membership test direction.includes with argument top. -/
def Dir.hasTop : Dir → Bool
  | .top | .topLeft | .topRight => true
  | _ => false

/-- Membership test direction.includes with argument bottom. -/
def Dir.hasBottom : Dir → Bool
  | .bottom | .bottomLeft | .bottomRight => true
  | _ => false

/-- Modelled from the spec: the measured bounding rectangle of a window's
element. The CSS styling layer is not part of src/; per the spec a
maximized window is rendered full-viewport below the menu bar by the
rendering layer's styling, and a hidden (display none) element measures
as the zero rectangle; otherwise the measured rect equals the inline
style geometry, with the desktop surface's origin at (0, 0) (the
source's fallback when no desktop element is present). -/
def displayedRect (env : Env) (w : Win) : Rect :=
  if w.hidden then ⟨0, 0, 0, 0⟩
  else if w.isMaximized then
    ⟨0, env.menuBarHeight, env.viewportWidth, env.viewportHeight - env.menuBarHeight⟩
  else ⟨w.left, w.top, w.width, w.height⟩

/-- The getMinDimensions method: minimum window width is min(400,
horizontal space) unless the horizontal space after padding is at most
240 in which case it is all of that space; analogously 300/220 for the
height against the space left after menu bar and padding. -/
def getMinDimensions (env : Env) : Int × Int :=
  let horizontalSpace := max 0 (env.viewportWidth - env.padding * 2)
  let verticalSpace := max 0 (env.viewportHeight - env.menuBarHeight - env.padding * 2)
  let minWidth := if horizontalSpace ≤ 240 then horizontalSpace else min 400 horizontalSpace
  let minHeight := if verticalSpace ≤ 220 then verticalSpace else min 300 verticalSpace
  (minWidth, minHeight)

/-- The ensureWindowInViewport method: skip maximized or hidden windows;
shrink width/height to the padded viewport working area when that area is
positive; then clamp left into [padding, max(padding, viewportWidth -
width - padding)] and top into [menuBarHeight + padding,
max(menuBarHeight + padding, viewportHeight - height - padding)]. -/
def ensureWindowInViewport (env : Env) (w : Win) : Win :=
  if w.isMaximized || w.hidden then w
  else
    let maxWidth := env.viewportWidth - env.padding * 2
    let maxHeight := env.viewportHeight - env.menuBarHeight - env.padding * 2
    let adjWidth := if 0 < maxWidth then min w.width maxWidth else w.width
    let adjHeight := if 0 < maxHeight then min w.height maxHeight else w.height
    let maxLeft := env.viewportWidth - adjWidth - env.padding
    let maxTop := env.viewportHeight - adjHeight - env.padding
    let newLeft := clamp w.left env.padding (max env.padding maxLeft)
    let newTop := clamp w.top (env.menuBarHeight + env.padding)
      (max (env.menuBarHeight + env.padding) maxTop)
    { w with width := adjWidth, height := adjHeight, left := newLeft, top := newTop }

/-- Apply a key-aware transformation to every value of an association
list, keeping the keys. All registry and dock updates of the source are
instances of this shape. -/
def mapVals {β : Type} (g : String → β → β) (l : List (String × β)) :
    List (String × β) :=
  l.map fun p => (p.1, g p.1 p.2)

/-- Update every registry entry whose key is the given name (object-key
update; keys are unique in the registry built at init). -/
def updateWin (name : String) (f : Win → Win) (ws : List (String × Win)) :
    List (String × Win) :=
  mapVals (fun k w => if k = name then f w else w) ws

/-- The updateDockIcon method: toggle the active class on the dock icon
of the given app, a no-op when that app has no dock icon. -/
def updateDockIcon (name : String) (isActive : Bool) (m : Manager) : Manager :=
  { m with dockIcons := mapVals (fun k b => if k = name then isActive else b) m.dockIcons }

/-- The bringToFront method: no-op on unknown names; otherwise increment
maxZIndex, assign it to the target's zIndex, record the target as the
activeWindow, remove the active class from every window and add it to
the target. -/
def bringToFront (name : String) (m : Manager) : Manager :=
  match List.lookup name m.windows with
  | none => m
  | some _ =>
    let z := m.maxZIndex + 1
    { m with
      maxZIndex := z
      activeWindow := some name
      windows := mapVals (fun k w =>
        if k = name then { w with isActive := true, zIndex := z }
        else { w with isActive := false }) m.windows }

/-- The two registry/class steps at the head of the openWindow method:
un-minimize if the state is minimized, then reveal (add the active
class) if the state is closed. -/
def openTransition (w : Win) : Win :=
  let w1 := if w.state = WState.minimized
    then { w with isMinimized := false, state := WState.opened } else w
  if w1.state = WState.closed
    then { w1 with isActive := true, state := WState.opened } else w1

/-- The openWindow method: no-op on unknown names; un-minimize if
minimized, reveal (add the active class) if closed, bring to front,
re-clamp into the viewport and set the dock indicator. -/
def openWindow (env : Env) (name : String) (m : Manager) : Manager :=
  match List.lookup name m.windows with
  | none => m
  | some w =>
    let m1 := { m with windows := updateWin name (fun _ => openTransition w) m.windows }
    let m2 := bringToFront name m1
    let m3 := { m2 with windows := updateWin name (ensureWindowInViewport env) m2.windows }
    updateDockIcon name true m3

/-- The closeWindow method: no-op on unknown names; remove the active,
maximized and minimized classes, set the state to closed and clear the
dock indicator. -/
def closeWindow (name : String) (m : Manager) : Manager :=
  match List.lookup name m.windows with
  | none => m
  | some w =>
    let w1 := { w with
      isActive := false, isMaximized := false, isMinimized := false,
      state := WState.closed }
    updateDockIcon name false { m with windows := updateWin name (fun _ => w1) m.windows }

/-- The minimizeWindow method: no-op on unknown names; add the minimized
class, remove active and maximized, set the state to minimized and keep
the dock indicator on. -/
def minimizeWindow (name : String) (m : Manager) : Manager :=
  match List.lookup name m.windows with
  | none => m
  | some w =>
    let w1 := { w with
      isMinimized := true, isActive := false, isMaximized := false,
      state := WState.minimized }
    updateDockIcon name true { m with windows := updateWin name (fun _ => w1) m.windows }

/-- Restore arm of the maximizeWindow toggle: remove the maximized
class, apply originalPosition / originalSize but only when both
coordinates of the pair are non-zero (the JS truthiness test
originalPos.x and originalPos.y), then re-clamp into the viewport. -/
def restoreWin (env : Env) (w : Win) : Win :=
  let w1 := { w with isMaximized := false }
  let w2 := if w.originalPosition.1 ≠ 0 ∧ w.originalPosition.2 ≠ 0
    then { w1 with left := w.originalPosition.1, top := w.originalPosition.2 } else w1
  let w3 := if w.originalSize.1 ≠ 0 ∧ w.originalSize.2 ≠ 0
    then { w2 with width := w.originalSize.1, height := w.originalSize.2 } else w2
  ensureWindowInViewport env w3

/-- Capture arm of the maximizeWindow toggle: record the measured rect
into the restore bounds and add the maximized class. -/
def captureWin (env : Env) (w : Win) : Win :=
  let r := displayedRect env w
  { w with
    originalPosition := (r.left, r.top),
    originalSize := (r.width, r.height), isMaximized := true }

/-- The maximizeWindow method (a toggle): no-op on unknown names; the
restore arm runs when the element carries the maximized class, the
capture arm otherwise. The registry state field is not written on
either branch, exactly as in the source. -/
def maximizeWindow (env : Env) (name : String) (m : Manager) : Manager :=
  match List.lookup name m.windows with
  | none => m
  | some w =>
    if w.isMaximized then
      { m with windows := updateWin name (fun _ => restoreWin env w) m.windows }
    else
      { m with windows := updateWin name (fun _ => captureWin env w) m.windows }

/-- The toggleWindow method: no-op on unknown names; closed or minimized
behave like open, open or maximized only bring the window to the front. -/
def toggleWindow (env : Env) (name : String) (m : Manager) : Manager :=
  match List.lookup name m.windows with
  | none => m
  | some w =>
    match w.state with
    | WState.closed => openWindow env name m
    | WState.minimized => openWindow env name m
    | WState.opened => bringToFront name m
    | WState.maximized => bringToFront name m

/-- Directional adjustment of the handleResize method followed by the
minimum-dimension clamp: right grows the width by dx, left shrinks the
width by dx and shifts the left edge, bottom grows the height by dy, top
shrinks the height by dy and shifts the top edge; then width and height
are raised to the computed minimums. -/
def resizeAdjusted (env : Env) (start : RStart) (dir : Dir) (e : Int × Int) : Rect :=
  let dx := e.1 - start.x
  let dy := e.2 - start.y
  let md := getMinDimensions env
  let newWidth := if dir.hasLeft then start.width - dx
    else if dir.hasRight then start.width + dx else start.width
  let newLeft := if dir.hasLeft then start.left + dx else start.left
  let newHeight := if dir.hasTop then start.height - dy
    else if dir.hasBottom then start.height + dy else start.height
  let newTop := if dir.hasTop then start.top + dy else start.top
  ⟨newLeft, newTop, max md.1 newWidth, max md.2 newHeight⟩

/-- The full geometry computation of the handleResize method: after the
directional adjustment and minimum clamp, absorb a negative left into
the width and pin left to 0, absorb a top above the menu bar into the
height and pin top to the menu bar, then shrink width/height so the
right/bottom edges stay inside the viewport. -/
def resizeGeom (env : Env) (start : RStart) (dir : Dir) (e : Int × Int) : Rect :=
  let a := resizeAdjusted env start dir e
  let w1 := if a.left < 0 then a.width + a.left else a.width
  let l1 := if a.left < 0 then 0 else a.left
  let h1 := if a.top < env.menuBarHeight then a.height + a.top - env.menuBarHeight else a.height
  let t1 := if a.top < env.menuBarHeight then env.menuBarHeight else a.top
  let w2 := if env.viewportWidth < l1 + w1 then env.viewportWidth - l1 else w1
  let h2 := if env.viewportHeight < t1 + h1 then env.viewportHeight - t1 else h1
  ⟨l1, t1, w2, h2⟩

/-- The handleResize method: guarded by the registry lookup of the resize
target (the source's check that windowData exists); the handler is only
ever invoked with the session's direction and anchor populated, so the
degenerate missing-session cases are no-ops. Applies resizeGeom to the
target's surface. -/
def handleResize (env : Env) (e : Int × Int) (m : Manager) : Manager :=
  match m.resizeTarget with
  | none => m
  | some name =>
    match List.lookup name m.windows with
    | none => m
    | some _ =>
      match m.resizeStart, m.resizeDirection with
      | some start, some dir =>
        let g := resizeGeom env start dir e
        let f := fun ww => { ww with
          width := g.width, height := g.height,
          left := g.left, top := g.top }
        { m with windows := updateWin name f m.windows }
      | _, _ => m

/-- The tail of the mousemove drag branch: store the (possibly
re-anchored) drag offset, compute the new top-left as pointer minus
offset, clamp x into [0, viewportWidth - windowWidth] and y into
[menuBarHeight, viewportHeight - windowHeight] using the element's
measured dimensions, and apply it to the surface. -/
def dragApply (env : Env) (off : Int × Int) (e : Int × Int) (name : String)
    (m : Manager) : Manager :=
  match List.lookup name m.windows with
  | none => m
  | some w =>
    let r := displayedRect env w
    let newX := e.1 - off.1
    let newY := e.2 - off.2
    let maxX := env.viewportWidth - r.width
    let maxY := env.viewportHeight - r.height
    { m with
      dragOffset := off
      windows := updateWin name
        (fun ww => { ww with
          left := max 0 (min newX maxX),
          top := max env.menuBarHeight (min newY maxY) }) m.windows }

/-- The document mousemove handler: an active resize session takes
precedence; otherwise an active drag session moves the dragged window,
first restoring it (and re-anchoring the offset to center the pointer
horizontally with a fixed vertical offset of 50) if it is still
maximized. The source indexes the registry with the session's target
without a guard; the session only ever records registered names, so the
missing-name case is modelled as a no-op. -/
def onMouseMove (env : Env) (e : Int × Int) (m : Manager) : Manager :=
  if m.resizing && m.resizeTarget.isSome then handleResize env e m
  else if m.dragging && m.currentDraggedWindow.isSome then
    match m.currentDraggedWindow with
    | none => m
    | some name =>
      match List.lookup name m.windows with
      | none => m
      | some w =>
        if w.isMaximized then
          let m1 := maximizeWindow env name m
          match List.lookup name m1.windows with
          | none => m1
          | some w1 =>
            let r := displayedRect env w1
            dragApply env (e.1 - r.width / 2, e.2 - 50) e name m1
        else dragApply env m.dragOffset e name m
  else m

/-- The document mouseup handler: clear whichever session is active. -/
def onMouseUp (m : Manager) : Manager :=
  let m1 := if m.dragging
    then { m with dragging := false, currentDraggedWindow := none } else m
  if m1.resizing
    then { m1 with
      resizing := false, resizeTarget := none,
      resizeDirection := none, resizeStart := none } else m1

/-- The titlebar mousedown handler: bring the window to front, open a
drag session with the pointer offset from the measured top-left, and
record the current top-left into originalPosition only when the window
is not maximized (the source's comment: store original position if not
maximized). Titlebars belong to registered windows, so the unknown-name
case is modelled as a no-op. -/
def dragMouseDown (env : Env) (e : Int × Int) (name : String) (m : Manager) : Manager :=
  match List.lookup name m.windows with
  | none => m
  | some w =>
    let m1 := bringToFront name m
    let r := displayedRect env w
    let m2 := { m1 with
      dragging := true, currentDraggedWindow := some name,
      dragOffset := (e.1 - r.left, e.2 - r.top) }
    if w.isMaximized then m2
    else
      let f := fun ww => { ww with originalPosition := (r.left, r.top) }
      { m2 with windows := updateWin name f m2.windows }

/-- The resize-handle mousedown handler: ignored on maximized windows;
otherwise bring the window to front and open a resize session with the
measured anchor. Handles belong to registered windows, so the
unknown-name case is modelled as a no-op. -/
def resizeMouseDown (env : Env) (e : Int × Int) (name : String) (dir : Dir)
    (m : Manager) : Manager :=
  match List.lookup name m.windows with
  | none => m
  | some w =>
    if w.isMaximized then m
    else
      let m1 := bringToFront name m
      let r := displayedRect env w
      { m1 with
        resizing := true, resizeTarget := some name,
        resizeDirection := some dir,
        resizeStart := some ⟨e.1, e.2, r.width, r.height, r.left, r.top⟩ }

/-- The ensureAllWindowsInViewport method: the containment pass over
every registered window. -/
def ensureAllWindowsInViewport (env : Env) (m : Manager) : Manager :=
  { m with windows := mapVals (fun _ w => ensureWindowInViewport env w) m.windows }

/-- One registry entry as built in the constructor's init loop: state
closed, no class flags, zero restore bounds. A closed window is not
displayed (hidden) and its element carries no inline geometry or
z-index, modelled as zeroes (which sit below the stacking seed 200). -/
def initialWindow : Win :=
  { state := WState.closed, isActive := false, isMaximized := false,
    isMinimized := false, hidden := true, left := 0, top := 0, width := 0,
    height := 0, zIndex := 0, originalPosition := (0, 0), originalSize := (0, 0) }

/-- The WindowManager constructor state right after field initialization
and registry construction: the stacking counter is seeded at 200, no
window is active and no session is open. -/
def initialManager (names dockNames : List String) : Manager :=
  { windows := names.map fun n => (n, initialWindow)
    activeWindow := none
    maxZIndex := 200
    dragging := false
    dragOffset := (0, 0)
    currentDraggedWindow := none
    resizing := false
    resizeTarget := none
    resizeDirection := none
    resizeStart := none
    dockIcons := dockNames.map fun n => (n, false) }

/-!
Association-list helper lemmas used throughout the verification.
-/

theorem lookup_mapVals {β : Type} (g : String → β → β) :
    ∀ (l : List (String × β)) (k : String),
      List.lookup k (mapVals g l) = (List.lookup k l).map (g k)
  | [], _ => rfl
  | (a, b) :: t, k => by
    by_cases h : k = a
    · subst h
      simp [mapVals, List.lookup]
    · have hba : (k == a) = false := beq_eq_false_iff_ne.mpr h
      simp only [mapVals, List.map_cons, List.lookup, hba]
      exact lookup_mapVals g t k

theorem keys_mapVals {β : Type} (g : String → β → β) (l : List (String × β)) :
    (mapVals g l).map Prod.fst = l.map Prod.fst := by
  simp [mapVals, Function.comp]

theorem mem_of_lookup {β : Type} :
    ∀ {l : List (String × β)} {k : String} {v : β},
      List.lookup k l = some v → (k, v) ∈ l := by
  intro l
  induction l with
  | nil => intro k v h; simp [List.lookup] at h
  | cons p t ih =>
    intro k v h
    rcases p with ⟨a, b⟩
    by_cases hk : k = a
    · subst hk
      simp [List.lookup] at h
      simp [h]
    · have hba : (k == a) = false := beq_eq_false_iff_ne.mpr hk
      simp only [List.lookup, hba] at h
      exact List.mem_cons_of_mem _ (ih h)

theorem lookup_of_mem_nodup {β : Type} :
    ∀ {l : List (String × β)} {k : String} {v : β},
      (l.map Prod.fst).Nodup → (k, v) ∈ l → List.lookup k l = some v := by
  intro l
  induction l with
  | nil => intro k v _ h; simp at h
  | cons p t ih =>
    intro k v hnd hmem
    rcases p with ⟨a, b⟩
    simp only [List.map_cons, List.nodup_cons] at hnd
    rcases List.mem_cons.mp hmem with h | h
    · have h1 : k = a := congrArg Prod.fst h
      have h2 : v = b := congrArg Prod.snd h
      subst h1
      subst h2
      simp [List.lookup]
    · by_cases hk : k = a
      · exfalso
        subst hk
        exact hnd.1 (by simpa using List.mem_map_of_mem Prod.fst h)
      · have hba : (k == a) = false := beq_eq_false_iff_ne.mpr hk
        simp only [List.lookup, hba]
        exact ih hnd.2 h

/-!
The invariant of claim C1, exactly as the spec states it, together with
the auxiliary well-formedness facts that make it inductive. All
components are phrased on the registry list and the stacking counter
only, so that updates to the session fields preserve them by
definition.
-/

/-- At most one window carries the active class: any two active entries
share the same registry key. -/
def AtMostOneActive (ws : List (String × Win)) : Prop :=
  ∀ p ∈ ws, ∀ q ∈ ws, p.2.isActive = true → q.2.isActive = true → p.1 = q.1

/-- The active window, if any, has the strictly greatest stackOrder. -/
def ActiveTopmost (ws : List (String × Win)) : Prop :=
  ∀ p ∈ ws, ∀ q ∈ ws, p.2.isActive = true → p.1 ≠ q.1 → q.2.zIndex < p.2.zIndex

/-- A minimized window is never the active window. -/
def ActiveNotMinimized (ws : List (String × Win)) : Prop :=
  ∀ p ∈ ws, p.2.isActive = true → p.2.isMinimized = false

/-- Every window's stackOrder is bounded by the stacking counter (the
counter is seeded at 200, above the initial z-index of every surface,
and each assignment hands out the incremented counter). -/
def ZBounded (ws : List (String × Win)) (mz : Int) : Prop :=
  ∀ p ∈ ws, p.2.zIndex ≤ mz

/-- The minimized class flag agrees with the registry state field (both
are always written together by the source). -/
def MinimizedSync (ws : List (String × Win)) : Prop :=
  ∀ p ∈ ws, p.2.isMinimized = true ↔ p.2.state = WState.minimized

/-- The invariant exactly as claimed: at most one active window, the
active window has the maximum stackOrder, and a minimized window is
never active. -/
def ClaimedInvariant (m : Manager) : Prop :=
  AtMostOneActive m.windows ∧ ActiveTopmost m.windows ∧ ActiveNotMinimized m.windows

/-- Auxiliary well-formedness: counter bounds all stack orders, the
minimized flag matches the state field, and registry keys are distinct
(the registry is built from an object keyed by app name). -/
def Aux (m : Manager) : Prop :=
  ZBounded m.windows m.maxZIndex ∧ MinimizedSync m.windows ∧
    (m.windows.map Prod.fst).Nodup

/-- The inductive invariant: the claimed invariant plus Aux. -/
def ManagerInv (m : Manager) : Prop :=
  ClaimedInvariant m ∧ Aux m

instance (ws : List (String × Win)) : Decidable (AtMostOneActive ws) := by
  unfold AtMostOneActive; infer_instance

instance (ws : List (String × Win)) : Decidable (ActiveTopmost ws) := by
  unfold ActiveTopmost; infer_instance

instance (ws : List (String × Win)) : Decidable (ActiveNotMinimized ws) := by
  unfold ActiveNotMinimized; infer_instance

instance (ws : List (String × Win)) (mz : Int) : Decidable (ZBounded ws mz) := by
  unfold ZBounded; infer_instance

instance (ws : List (String × Win)) : Decidable (MinimizedSync ws) := by
  unfold MinimizedSync; infer_instance

instance (m : Manager) : Decidable (ClaimedInvariant m) := by
  unfold ClaimedInvariant; infer_instance

instance (m : Manager) : Decidable (Aux m) := by
  unfold Aux; infer_instance

instance (m : Manager) : Decidable (ManagerInv m) := by
  unfold ManagerInv; infer_instance

theorem mem_mapVals {β : Type} {g : String → β → β} {l : List (String × β)}
    {p : String × β} :
    p ∈ mapVals g l ↔ ∃ q ∈ l, p = (q.1, g q.1 q.2) := by
  simp [mapVals, List.mem_map, eq_comm]

theorem entry_val_eq {β : Type} {ws : List (String × β)}
    (hnd : (ws.map Prod.fst).Nodup) {name : String} {w : β}
    (hl : List.lookup name ws = some w) {p : String × β}
    (hp : p ∈ ws) (hk : p.1 = name) : p.2 = w := by
  have h1 : List.lookup name ws = some p.2 := by
    rcases p with ⟨a, b⟩
    cases hk
    exact lookup_of_mem_nodup hnd hp
  exact (Option.some.inj (hl.symm.trans h1)).symm

theorem atMostOne_mapVals {t : String → Win → Win}
    (hA : ∀ k ww, (t k ww).isActive = ww.isActive)
    {ws : List (String × Win)} (h : AtMostOneActive ws) :
    AtMostOneActive (mapVals t ws) := by
  intro p hp q hq hpA hqA
  rcases mem_mapVals.mp hp with ⟨p0, hp0, rfl⟩
  rcases mem_mapVals.mp hq with ⟨q0, hq0, rfl⟩
  exact h p0 hp0 q0 hq0 ((hA p0.1 p0.2) ▸ hpA) ((hA q0.1 q0.2) ▸ hqA)

theorem topmost_mapVals {t : String → Win → Win}
    (hA : ∀ k ww, (t k ww).isActive = ww.isActive)
    (hZ : ∀ k ww, (t k ww).zIndex = ww.zIndex)
    {ws : List (String × Win)} (h : ActiveTopmost ws) :
    ActiveTopmost (mapVals t ws) := by
  intro p hp q hq hpA hne
  rcases mem_mapVals.mp hp with ⟨p0, hp0, rfl⟩
  rcases mem_mapVals.mp hq with ⟨q0, hq0, rfl⟩
  have := h p0 hp0 q0 hq0 ((hA p0.1 p0.2) ▸ hpA) hne
  simpa [hZ p0.1 p0.2, hZ q0.1 q0.2] using this

theorem notMin_mapVals {t : String → Win → Win}
    (hA : ∀ k ww, (t k ww).isActive = ww.isActive)
    (hM : ∀ k ww, (t k ww).isMinimized = ww.isMinimized)
    {ws : List (String × Win)} (h : ActiveNotMinimized ws) :
    ActiveNotMinimized (mapVals t ws) := by
  intro p hp hpA
  rcases mem_mapVals.mp hp with ⟨p0, hp0, rfl⟩
  have := h p0 hp0 ((hA p0.1 p0.2) ▸ hpA)
  simpa [hM p0.1 p0.2] using this

theorem zBounded_mapVals {t : String → Win → Win}
    (hZ : ∀ k ww, (t k ww).zIndex = ww.zIndex)
    {ws : List (String × Win)} {mz : Int} (h : ZBounded ws mz) :
    ZBounded (mapVals t ws) mz := by
  intro p hp
  rcases mem_mapVals.mp hp with ⟨p0, hp0, rfl⟩
  simpa [hZ p0.1 p0.2] using h p0 hp0

theorem sync_mapVals {t : String → Win → Win}
    (hM : ∀ k ww, (t k ww).isMinimized = ww.isMinimized)
    (hS : ∀ k ww, (t k ww).state = ww.state)
    {ws : List (String × Win)} (h : MinimizedSync ws) :
    MinimizedSync (mapVals t ws) := by
  intro p hp
  rcases mem_mapVals.mp hp with ⟨p0, hp0, rfl⟩
  simpa [hM p0.1 p0.2, hS p0.1 p0.2] using h p0 hp0

/-- Updating registry values without touching the active flag, the stack
order, the minimized flag or the state field preserves the whole
invariant: this covers every geometry-only write of the source. -/
theorem managerInv_mapVals {m : Manager} {t : String → Win → Win}
    (hA : ∀ k ww, (t k ww).isActive = ww.isActive)
    (hZ : ∀ k ww, (t k ww).zIndex = ww.zIndex)
    (hM : ∀ k ww, (t k ww).isMinimized = ww.isMinimized)
    (hS : ∀ k ww, (t k ww).state = ww.state)
    (h : ManagerInv m) :
    ManagerInv { m with windows := mapVals t m.windows } := by
  obtain ⟨⟨h1, h2, h3⟩, h4, h5, h6⟩ := h
  exact ⟨⟨atMostOne_mapVals hA h1, topmost_mapVals hA hZ h2,
      notMin_mapVals hA hM h3⟩,
    zBounded_mapVals hZ h4, sync_mapVals hM hS h5,
    by simpa [keys_mapVals] using h6⟩

/-- The invariant only reads the registry and the stacking counter, so
any manager update that keeps both preserves it. -/
theorem managerInv_congr {m m' : Manager} (hw : m'.windows = m.windows)
    (hz : m'.maxZIndex = m.maxZIndex) (h : ManagerInv m) : ManagerInv m' := by
  unfold ManagerInv ClaimedInvariant Aux at h ⊢
  rw [hw, hz]
  exact h

theorem aux_congr {m m' : Manager} (hw : m'.windows = m.windows)
    (hz : m'.maxZIndex = m.maxZIndex) (h : Aux m) : Aux m' := by
  unfold Aux at h ⊢
  rw [hw, hz]
  exact h

/-- Replacing the unique entry of a registered name by a window with the
same stack order, an active flag that can only be inherited, a minimized
flag that is clear whenever the active flag is set, and a consistent
minimized flag, preserves the invariant. This covers close, minimize and
both branches of maximize. -/
theorem managerInv_updateWin_const {m : Manager} {name : String} {w W : Win}
    (hl : List.lookup name m.windows = some w)
    (hact : W.isActive = true → w.isActive = true)
    (hz : W.zIndex = w.zIndex)
    (hmin : W.isActive = true → W.isMinimized = false)
    (hsync : W.isMinimized = true ↔ W.state = WState.minimized)
    (h : ManagerInv m) :
    ManagerInv { m with windows := updateWin name (fun _ => W) m.windows } := by
  obtain ⟨⟨h1, h2, h3⟩, h4, h5, h6⟩ := h
  have hwmem : (name, w) ∈ m.windows := mem_of_lookup hl
  -- transported activity: a new entry is active only if its source entry was
  have hsrc : ∀ p0 : String × Win, p0 ∈ m.windows →
      ((if p0.1 = name then W else p0.2).isActive = true) → p0.2.isActive = true := by
    intro p0 hp0 hA
    by_cases hk : p0.1 = name
    · rw [if_pos hk] at hA
      have := entry_val_eq h6 hl hp0 hk
      rw [this]
      exact hact hA
    · rwa [if_neg hk] at hA
  have hzeq : ∀ p0 : String × Win, p0 ∈ m.windows →
      (if p0.1 = name then W else p0.2).zIndex = p0.2.zIndex := by
    intro p0 hp0
    by_cases hk : p0.1 = name
    · rw [if_pos hk, hz, entry_val_eq h6 hl hp0 hk]
    · rw [if_neg hk]
  refine ⟨⟨?_, ?_, ?_⟩, ?_, ?_, ?_⟩
  · intro p hp q hq hpA hqA
    simp only [updateWin] at hp
    rcases mem_mapVals.mp hp with ⟨p0, hp0, rfl⟩
    simp only [updateWin] at hq
    rcases mem_mapVals.mp hq with ⟨q0, hq0, rfl⟩
    exact h1 p0 hp0 q0 hq0 (hsrc p0 hp0 hpA) (hsrc q0 hq0 hqA)
  · intro p hp q hq hpA hne
    simp only [updateWin] at hp
    rcases mem_mapVals.mp hp with ⟨p0, hp0, rfl⟩
    simp only [updateWin] at hq
    rcases mem_mapVals.mp hq with ⟨q0, hq0, rfl⟩
    have := h2 p0 hp0 q0 hq0 (hsrc p0 hp0 hpA) hne
    have e1 := hzeq p0 hp0
    have e2 := hzeq q0 hq0
    simp only at e1 e2 ⊢
    rw [e1, e2]
    exact this
  · intro p hp hpA
    simp only [updateWin] at hp
    rcases mem_mapVals.mp hp with ⟨p0, hp0, rfl⟩
    by_cases hk : p0.1 = name
    · simp only [hk, if_pos] at hpA ⊢
      simpa using hmin (by simpa using hpA)
    · simp only [if_neg hk] at hpA ⊢
      exact h3 p0 hp0 hpA
  · intro p hp
    simp only [updateWin] at hp
    rcases mem_mapVals.mp hp with ⟨p0, hp0, rfl⟩
    have := hzeq p0 hp0
    simp only at this ⊢
    rw [this]
    exact h4 p0 hp0
  · intro p hp
    simp only [updateWin] at hp
    rcases mem_mapVals.mp hp with ⟨p0, hp0, rfl⟩
    by_cases hk : p0.1 = name
    · simpa [hk] using hsync
    · simpa [hk] using h5 p0 hp0
  · simpa [updateWin, keys_mapVals] using h6

/-- Auxiliary invariant only, for the same constant-replacement shape;
used for the intermediate registry state inside openWindow, where the
active-class bookkeeping is momentarily out of sync until bringToFront
runs. -/
theorem aux_updateWin_const {m : Manager} {name : String} {w W : Win}
    (hl : List.lookup name m.windows = some w)
    (hz : W.zIndex = w.zIndex)
    (hsync : W.isMinimized = true ↔ W.state = WState.minimized)
    (h : Aux m) :
    Aux { m with windows := updateWin name (fun _ => W) m.windows } := by
  obtain ⟨h4, h5, h6⟩ := h
  refine ⟨?_, ?_, ?_⟩
  · intro p hp
    simp only [updateWin] at hp
    rcases mem_mapVals.mp hp with ⟨p0, hp0, rfl⟩
    by_cases hk : p0.1 = name
    · have := entry_val_eq h6 hl hp0 hk
      simp only [hk, if_pos]
      simpa [hz, this] using h4 p0 hp0
    · simp only [if_neg hk]
      exact h4 p0 hp0
  · intro p hp
    simp only [updateWin] at hp
    rcases mem_mapVals.mp hp with ⟨p0, hp0, rfl⟩
    by_cases hk : p0.1 = name
    · simpa [hk] using hsync
    · simpa [hk] using h5 p0 hp0
  · simpa [updateWin, keys_mapVals] using h6

/-- After a successful bringToFront the full invariant holds, needing
only the auxiliary facts about the pre-state and that the target is not
minimized: the loop removes the active class from every other window, so
any prior inconsistency of the active flags is wiped out. -/
theorem managerInv_bringToFront {m : Manager} {name : String} {w : Win}
    (hAux : Aux m)
    (hl : List.lookup name m.windows = some w)
    (hmin : w.isMinimized = false) :
    ManagerInv (bringToFront name m) := by
  obtain ⟨h4, h5, h6⟩ := hAux
  unfold bringToFront
  rw [hl]
  simp only
  refine ⟨⟨?_, ?_, ?_⟩, ?_, ?_, ?_⟩
  · intro p hp q hq hpA hqA
    simp only [updateWin] at hp
    rcases mem_mapVals.mp hp with ⟨p0, hp0, rfl⟩
    simp only [updateWin] at hq
    rcases mem_mapVals.mp hq with ⟨q0, hq0, rfl⟩
    by_cases hpk : p0.1 = name
    · by_cases hqk : q0.1 = name
      · simp [hpk, hqk]
      · simp [hqk] at hqA
    · simp [hpk] at hpA
  · intro p hp q hq hpA hne
    simp only [updateWin] at hp
    rcases mem_mapVals.mp hp with ⟨p0, hp0, rfl⟩
    simp only [updateWin] at hq
    rcases mem_mapVals.mp hq with ⟨q0, hq0, rfl⟩
    by_cases hpk : p0.1 = name
    · have hqk : ¬ q0.1 = name := by
        simp only [hpk] at hne
        exact fun hq => hne hq.symm
      have hqz := h4 q0 hq0
      simp only [hpk, hqk, if_pos, if_neg, not_false_iff]
      simp only [if_pos rfl] at *
      simp [hqk]
      omega
    · simp [hpk] at hpA
  · intro p hp hpA
    simp only [updateWin] at hp
    rcases mem_mapVals.mp hp with ⟨p0, hp0, rfl⟩
    by_cases hpk : p0.1 = name
    · have := entry_val_eq h6 hl hp0 hpk
      simp [hpk, this, hmin]
    · simp [hpk] at hpA
  · intro p hp
    simp only [updateWin] at hp
    rcases mem_mapVals.mp hp with ⟨p0, hp0, rfl⟩
    have := h4 p0 hp0
    by_cases hpk : p0.1 = name
    · simp [hpk]
    · simp [hpk]
      omega
  · intro p hp
    simp only [updateWin] at hp
    rcases mem_mapVals.mp hp with ⟨p0, hp0, rfl⟩
    by_cases hpk : p0.1 = name <;> simpa [hpk] using h5 p0 hp0
  · simpa [keys_mapVals] using h6

/-!
Field-preservation facts for the per-window transformations: the
containment pass and both maximize arms never touch the active flag,
the stack order, the minimized flag or the state field.
-/

theorem ensure_isActive (env : Env) (w : Win) :
    (ensureWindowInViewport env w).isActive = w.isActive := by
  unfold ensureWindowInViewport
  split <;> rfl

theorem ensure_zIndex (env : Env) (w : Win) :
    (ensureWindowInViewport env w).zIndex = w.zIndex := by
  unfold ensureWindowInViewport
  split <;> rfl

theorem ensure_isMinimized (env : Env) (w : Win) :
    (ensureWindowInViewport env w).isMinimized = w.isMinimized := by
  unfold ensureWindowInViewport
  split <;> rfl

theorem ensure_state (env : Env) (w : Win) :
    (ensureWindowInViewport env w).state = w.state := by
  unfold ensureWindowInViewport
  split <;> rfl

theorem ensure_isMaximized (env : Env) (w : Win) :
    (ensureWindowInViewport env w).isMaximized = w.isMaximized := by
  unfold ensureWindowInViewport
  split <;> rfl

theorem ensure_hidden (env : Env) (w : Win) :
    (ensureWindowInViewport env w).hidden = w.hidden := by
  unfold ensureWindowInViewport
  split <;> rfl

theorem restoreWin_isActive (env : Env) (w : Win) :
    (restoreWin env w).isActive = w.isActive := by
  unfold restoreWin
  rw [ensure_isActive]
  split_ifs <;> rfl

theorem restoreWin_zIndex (env : Env) (w : Win) :
    (restoreWin env w).zIndex = w.zIndex := by
  unfold restoreWin
  rw [ensure_zIndex]
  split_ifs <;> rfl

theorem restoreWin_isMinimized (env : Env) (w : Win) :
    (restoreWin env w).isMinimized = w.isMinimized := by
  unfold restoreWin
  rw [ensure_isMinimized]
  split_ifs <;> rfl

theorem restoreWin_state (env : Env) (w : Win) :
    (restoreWin env w).state = w.state := by
  unfold restoreWin
  rw [ensure_state]
  split_ifs <;> rfl

/-- Registered-window facts packaged for the lifecycle proofs. -/
theorem lookup_updateWin_self (name : String) (f : Win → Win)
    (ws : List (String × Win)) :
    List.lookup name (updateWin name f ws) = (List.lookup name ws).map f := by
  unfold updateWin
  rw [lookup_mapVals]
  simp

theorem lookup_updateWin_ne {name k : String} (hk : k ≠ name) (f : Win → Win)
    (ws : List (String × Win)) :
    List.lookup k (updateWin name f ws) = List.lookup k ws := by
  unfold updateWin
  rw [lookup_mapVals]
  cases List.lookup k ws <;> simp [hk]

/-!
Per-operation preservation of the inductive invariant.
-/

theorem managerInv_ensureUpdate (env : Env) (name : String) (m : Manager)
    (h : ManagerInv m) :
    ManagerInv { m with windows := updateWin name (ensureWindowInViewport env) m.windows } := by
  refine managerInv_mapVals ?_ ?_ ?_ ?_ h <;>
    intro k ww <;> split_ifs <;>
      simp [ensure_isActive, ensure_zIndex, ensure_isMinimized, ensure_state]

theorem managerInv_closeWindow (name : String) (m : Manager) (h : ManagerInv m) :
    ManagerInv (closeWindow name m) := by
  unfold closeWindow
  cases hl : List.lookup name m.windows with
  | none => exact h
  | some w =>
    exact managerInv_congr rfl rfl
      (managerInv_updateWin_const hl (by simp) rfl (by simp) (by simp) h)

theorem managerInv_minimizeWindow (name : String) (m : Manager) (h : ManagerInv m) :
    ManagerInv (minimizeWindow name m) := by
  unfold minimizeWindow
  cases hl : List.lookup name m.windows with
  | none => exact h
  | some w =>
    exact managerInv_congr rfl rfl
      (managerInv_updateWin_const hl (by simp) rfl (by simp) (by simp) h)

theorem managerInv_maximizeWindow (env : Env) (name : String) (m : Manager)
    (h : ManagerInv m) :
    ManagerInv (maximizeWindow env name m) := by
  unfold maximizeWindow
  cases hl : List.lookup name m.windows with
  | none => exact h
  | some w =>
    have hwmem : (name, w) ∈ m.windows := mem_of_lookup hl
    have hsyncw := h.2.2.1 (name, w) hwmem
    have hanm := h.1.2.2 (name, w) hwmem
    simp only
    by_cases hmax : w.isMaximized
    · rw [if_pos hmax]
      refine managerInv_updateWin_const hl ?_ (restoreWin_zIndex env w) ?_ ?_ h
      · rw [restoreWin_isActive]
        exact fun hh => hh
      · rw [restoreWin_isActive, restoreWin_isMinimized]
        exact hanm
      · rw [restoreWin_isMinimized, restoreWin_state]
        exact hsyncw
    · rw [if_neg hmax]
      refine managerInv_updateWin_const hl ?_ rfl ?_ ?_ h
      · exact fun hh => hh
      · exact hanm
      · exact hsyncw

theorem managerInv_openWindow (env : Env) (name : String) (m : Manager)
    (h : ManagerInv m) :
    ManagerInv (openWindow env name m) := by
  unfold openWindow
  cases hl : List.lookup name m.windows with
  | none => exact h
  | some w =>
    have hwmem : (name, w) ∈ m.windows := mem_of_lookup hl
    have hsyncw := h.2.2.1 (name, w) hwmem
    have hwminf : w.state ≠ WState.minimized → w.isMinimized = false := by
      intro hne
      have hni : ¬ w.isMinimized = true := fun hh => hne (hsyncw.mp hh)
      simpa using hni
    have ez : (openTransition w).zIndex = w.zIndex := by
      simp only [openTransition]
      split_ifs <;> rfl
    have emin : (openTransition w).isMinimized = false := by
      simp only [openTransition]
      by_cases h1 : w.state = WState.minimized
      · simp [h1]
      · have hmf := hwminf h1
        by_cases h2 : w.state = WState.closed <;> simp [h1, h2, hmf]
    have estate : (openTransition w).state ≠ WState.minimized := by
      simp only [openTransition]
      by_cases h1 : w.state = WState.minimized
      · simp [h1]
      · by_cases h2 : w.state = WState.closed <;> simp [h1, h2]
    have esync : (openTransition w).isMinimized = true ↔
        (openTransition w).state = WState.minimized := by
      constructor
      · intro hh
        rw [emin] at hh
        cases hh
      · intro hh
        exact absurd hh estate
    have aux1 : Aux { m with
        windows := updateWin name (fun _ => openTransition w) m.windows } :=
      aux_updateWin_const hl ez esync h.2
    have lk1 : List.lookup name ({ m with
        windows := updateWin name (fun _ => openTransition w) m.windows }).windows =
        some (openTransition w) := by
      show List.lookup name (updateWin name (fun _ => openTransition w) m.windows) = _
      rw [lookup_updateWin_self, hl]
      rfl
    have hm2 : ManagerInv (bringToFront name { m with
        windows := updateWin name (fun _ => openTransition w) m.windows }) :=
      managerInv_bringToFront aux1 lk1 emin
    exact managerInv_congr rfl rfl (managerInv_ensureUpdate env name _ hm2)

theorem bringToFront_none {name : String} {m : Manager}
    (hl : List.lookup name m.windows = none) : bringToFront name m = m := by
  unfold bringToFront
  rw [hl]

theorem managerInv_toggleWindow (env : Env) (name : String) (m : Manager)
    (h : ManagerInv m) :
    ManagerInv (toggleWindow env name m) := by
  unfold toggleWindow
  cases hl : List.lookup name m.windows with
  | none => exact h
  | some w =>
    have hwmem : (name, w) ∈ m.windows := mem_of_lookup hl
    have hsyncw := h.2.2.1 (name, w) hwmem
    simp only at hsyncw
    simp only
    cases hst : w.state with
    | closed => exact managerInv_openWindow env name m h
    | minimized => exact managerInv_openWindow env name m h
    | opened =>
      refine managerInv_bringToFront h.2 hl ?_
      rw [hst] at hsyncw
      have hni : ¬ w.isMinimized = true := fun hh => by cases hsyncw.mp hh
      simpa using hni
    | maximized =>
      refine managerInv_bringToFront h.2 hl ?_
      rw [hst] at hsyncw
      have hni : ¬ w.isMinimized = true := fun hh => by cases hsyncw.mp hh
      simpa using hni

theorem managerInv_bringToFront_op (name : String) (m : Manager)
    (h : ManagerInv m)
    (hmin : ∀ w, List.lookup name m.windows = some w → w.isMinimized = false) :
    ManagerInv (bringToFront name m) := by
  cases hl : List.lookup name m.windows with
  | none => rw [bringToFront_none hl]; exact h
  | some w => exact managerInv_bringToFront h.2 hl (hmin w hl)

/-- Geometry-only registry updates preserve the invariant. -/
theorem managerInv_updateWin_geom (m : Manager) (name : String) (f : Win → Win)
    (hA : ∀ ww, (f ww).isActive = ww.isActive)
    (hZ : ∀ ww, (f ww).zIndex = ww.zIndex)
    (hM : ∀ ww, (f ww).isMinimized = ww.isMinimized)
    (hS : ∀ ww, (f ww).state = ww.state)
    (h : ManagerInv m) :
    ManagerInv { m with windows := updateWin name f m.windows } := by
  refine managerInv_mapVals ?_ ?_ ?_ ?_ h <;>
    intro k ww <;> split_ifs <;> simp [hA, hZ, hM, hS]

theorem managerInv_handleResize (env : Env) (e : Int × Int) (m : Manager)
    (h : ManagerInv m) :
    ManagerInv (handleResize env e m) := by
  unfold handleResize
  cases ht : m.resizeTarget with
  | none => exact h
  | some name =>
    simp only
    cases hl : List.lookup name m.windows with
    | none => exact h
    | some w =>
      simp only
      cases hs : m.resizeStart with
      | none => cases hd : m.resizeDirection <;> exact h
      | some start =>
        cases hd : m.resizeDirection with
        | none => exact h
        | some dir =>
          exact managerInv_updateWin_geom _ _ _ (fun ww => rfl) (fun ww => rfl)
            (fun ww => rfl) (fun ww => rfl) h

theorem managerInv_dragApply (env : Env) (off e : Int × Int) (name : String)
    (m : Manager) (h : ManagerInv m) :
    ManagerInv (dragApply env off e name m) := by
  unfold dragApply
  cases hl : List.lookup name m.windows with
  | none => exact h
  | some w =>
    exact managerInv_congr rfl rfl
      (managerInv_updateWin_geom _ _ _ (fun ww => rfl) (fun ww => rfl)
        (fun ww => rfl) (fun ww => rfl) h)

theorem managerInv_onMouseMove (env : Env) (e : Int × Int) (m : Manager)
    (h : ManagerInv m) :
    ManagerInv (onMouseMove env e m) := by
  unfold onMouseMove
  split_ifs with h1 h2
  · exact managerInv_handleResize env e m h
  · cases hc : m.currentDraggedWindow with
    | none => exact h
    | some name =>
      simp only
      cases hl : List.lookup name m.windows with
      | none => exact h
      | some w =>
        simp only
        by_cases hmax : w.isMaximized
        · rw [if_pos hmax]
          have hmx : ManagerInv (maximizeWindow env name m) :=
            managerInv_maximizeWindow env name m h
          cases hl1 : List.lookup name (maximizeWindow env name m).windows with
          | none => exact hmx
          | some w1 => exact managerInv_dragApply env _ e name _ hmx
        · rw [if_neg hmax]
          exact managerInv_dragApply env _ e name m h
  · exact h

theorem managerInv_onMouseUp (m : Manager) (h : ManagerInv m) :
    ManagerInv (onMouseUp m) := by
  simp only [onMouseUp]
  split_ifs <;> exact managerInv_congr rfl rfl h

theorem managerInv_dragMouseDown (env : Env) (e : Int × Int) (name : String)
    (m : Manager) (h : ManagerInv m)
    (hmin : ∀ w, List.lookup name m.windows = some w → w.isMinimized = false) :
    ManagerInv (dragMouseDown env e name m) := by
  unfold dragMouseDown
  cases hl : List.lookup name m.windows with
  | none => exact h
  | some w =>
    have hm2 : ManagerInv { (bringToFront name m) with
        dragging := true, currentDraggedWindow := some name,
        dragOffset := (e.1 - (displayedRect env w).left,
          e.2 - (displayedRect env w).top) } :=
      managerInv_congr rfl rfl (managerInv_bringToFront h.2 hl (hmin w hl))
    simp only
    by_cases hmax : w.isMaximized
    · rw [if_pos hmax]
      exact hm2
    · rw [if_neg hmax]
      exact managerInv_updateWin_geom _ _ _ (fun ww => rfl) (fun ww => rfl)
        (fun ww => rfl) (fun ww => rfl) hm2

theorem managerInv_resizeMouseDown (env : Env) (e : Int × Int) (name : String)
    (dir : Dir) (m : Manager) (h : ManagerInv m)
    (hmin : ∀ w, List.lookup name m.windows = some w → w.isMinimized = false) :
    ManagerInv (resizeMouseDown env e name dir m) := by
  unfold resizeMouseDown
  cases hl : List.lookup name m.windows with
  | none => exact h
  | some w =>
    simp only
    by_cases hmax : w.isMaximized
    · rw [if_pos hmax]
      exact h
    · rw [if_neg hmax]
      exact managerInv_congr rfl rfl (managerInv_bringToFront h.2 hl (hmin w hl))

/-!
Equation lemmas: what each operation does to the registry entry of its
target, plus restore/capture field computations.
-/

theorem restoreWin_isMaximized (env : Env) (w : Win) :
    (restoreWin env w).isMaximized = false := by
  unfold restoreWin
  rw [ensure_isMaximized]
  split_ifs <;> rfl

theorem restoreWin_hidden (env : Env) (w : Win) :
    (restoreWin env w).hidden = w.hidden := by
  unfold restoreWin
  rw [ensure_hidden]
  split_ifs <;> rfl

theorem bringToFront_lookup {name : String} {m : Manager} {w : Win}
    (hl : List.lookup name m.windows = some w) :
    List.lookup name (bringToFront name m).windows =
      some { w with isActive := true, zIndex := m.maxZIndex + 1 } := by
  unfold bringToFront
  rw [hl]
  simp only
  rw [lookup_mapVals, hl]
  simp

theorem maximizeWindow_lookup {env : Env} {name : String} {m : Manager} {w : Win}
    (hl : List.lookup name m.windows = some w) :
    List.lookup name (maximizeWindow env name m).windows =
      some (if w.isMaximized then restoreWin env w else captureWin env w) := by
  unfold maximizeWindow
  rw [hl]
  simp only
  by_cases hmax : w.isMaximized
  · rw [if_pos hmax, if_pos hmax]
    show List.lookup name (updateWin name (fun _ => restoreWin env w) m.windows) =
      some (restoreWin env w)
    rw [lookup_updateWin_self, hl]
    rfl
  · rw [if_neg hmax, if_neg hmax]
    show List.lookup name (updateWin name (fun _ => captureWin env w) m.windows) =
      some (captureWin env w)
    rw [lookup_updateWin_self, hl]
    rfl

theorem dragApply_lookup {env : Env} {off e : Int × Int} {name : String}
    {m : Manager} {w : Win}
    (hl : List.lookup name m.windows = some w) :
    List.lookup name (dragApply env off e name m).windows =
      some { w with
        left := max 0 (min (e.1 - off.1)
          (env.viewportWidth - (displayedRect env w).width)),
        top := max env.menuBarHeight (min (e.2 - off.2)
          (env.viewportHeight - (displayedRect env w).height)) } := by
  unfold dragApply
  rw [hl]
  simp only
  show List.lookup name (updateWin name _ m.windows) = _
  rw [lookup_updateWin_self, hl]
  rfl

/-- C6: the viewport containment pass is idempotent: applying it twice
in a row with the same viewport yields the same geometry (and window)
as applying it once. -/
theorem c6_ensure_idempotent (env : Env) (w : Win) :
    ensureWindowInViewport env (ensureWindowInViewport env w) =
      ensureWindowInViewport env w := by
  obtain ⟨st, act, mx, mn, hd, l, t, wd, hgt, z, op, os⟩ := w
  by_cases hg : (mx || hd) = true
  · unfold ensureWindowInViewport
    simp [hg]
  · unfold ensureWindowInViewport clamp
    simp only [hg, Bool.false_eq_true, if_neg, if_false, Win.mk.injEq, true_and, and_true]
    refine ⟨?_, ?_, ?_, ?_⟩ <;> split_ifs <;> omega

/-!
Frame lemmas: which operations touch the stacking counter and the
recorded active-window reference.
-/

theorem maxZIndex_le_bringToFront (name : String) (m : Manager) :
    m.maxZIndex ≤ (bringToFront name m).maxZIndex := by
  unfold bringToFront
  cases List.lookup name m.windows with
  | none => exact le_refl _
  | some w => simp only; omega

theorem maxZIndex_closeWindow (name : String) (m : Manager) :
    (closeWindow name m).maxZIndex = m.maxZIndex := by
  unfold closeWindow
  cases List.lookup name m.windows <;> rfl

theorem maxZIndex_minimizeWindow (name : String) (m : Manager) :
    (minimizeWindow name m).maxZIndex = m.maxZIndex := by
  unfold minimizeWindow
  cases List.lookup name m.windows <;> rfl

theorem maxZIndex_maximizeWindow (env : Env) (name : String) (m : Manager) :
    (maximizeWindow env name m).maxZIndex = m.maxZIndex := by
  unfold maximizeWindow
  cases List.lookup name m.windows with
  | none => rfl
  | some w =>
    simp only
    split <;> rfl

theorem maxZIndex_dragApply (env : Env) (off e : Int × Int) (name : String)
    (m : Manager) :
    (dragApply env off e name m).maxZIndex = m.maxZIndex := by
  unfold dragApply
  cases List.lookup name m.windows <;> rfl

theorem maxZIndex_handleResize (env : Env) (e : Int × Int) (m : Manager) :
    (handleResize env e m).maxZIndex = m.maxZIndex := by
  unfold handleResize
  cases m.resizeTarget with
  | none => rfl
  | some name =>
    simp only
    cases List.lookup name m.windows with
    | none => rfl
    | some w =>
      simp only
      cases m.resizeStart with
      | none => cases m.resizeDirection <;> rfl
      | some s => cases m.resizeDirection <;> rfl

theorem maxZIndex_le_openWindow (env : Env) (name : String) (m : Manager) :
    m.maxZIndex ≤ (openWindow env name m).maxZIndex := by
  unfold openWindow
  cases hl : List.lookup name m.windows with
  | none => exact le_refl _
  | some w =>
    simp only
    exact maxZIndex_le_bringToFront name
      { m with windows := updateWin name (fun _ => openTransition w) m.windows }

theorem maxZIndex_le_toggleWindow (env : Env) (name : String) (m : Manager) :
    m.maxZIndex ≤ (toggleWindow env name m).maxZIndex := by
  unfold toggleWindow
  cases hl : List.lookup name m.windows with
  | none => exact le_refl _
  | some w =>
    simp only
    cases w.state with
    | closed => exact maxZIndex_le_openWindow env name m
    | minimized => exact maxZIndex_le_openWindow env name m
    | opened => exact maxZIndex_le_bringToFront name m
    | maximized => exact maxZIndex_le_bringToFront name m

theorem maxZIndex_le_onMouseMove (env : Env) (e : Int × Int) (m : Manager) :
    m.maxZIndex ≤ (onMouseMove env e m).maxZIndex := by
  unfold onMouseMove
  split_ifs with h1 h2
  · rw [maxZIndex_handleResize]
  · cases hc : m.currentDraggedWindow with
    | none => exact le_refl _
    | some name =>
      simp only
      cases hl : List.lookup name m.windows with
      | none => exact le_refl _
      | some w =>
        simp only
        by_cases hmax : w.isMaximized
        · rw [if_pos hmax]
          cases hl1 : List.lookup name (maximizeWindow env name m).windows with
          | none => rw [maxZIndex_maximizeWindow]
          | some w1 => rw [maxZIndex_dragApply, maxZIndex_maximizeWindow]
        · rw [if_neg hmax]
          rw [maxZIndex_dragApply]
  · exact le_refl _

theorem maxZIndex_onMouseUp (m : Manager) :
    (onMouseUp m).maxZIndex = m.maxZIndex := by
  simp only [onMouseUp]
  split_ifs <;> rfl

theorem maxZIndex_le_dragMouseDown (env : Env) (e : Int × Int) (name : String)
    (m : Manager) :
    m.maxZIndex ≤ (dragMouseDown env e name m).maxZIndex := by
  unfold dragMouseDown
  cases hl : List.lookup name m.windows with
  | none => exact le_refl _
  | some w =>
    simp only
    by_cases hmax : w.isMaximized
    · rw [if_pos hmax]
      exact maxZIndex_le_bringToFront name m
    · rw [if_neg hmax]
      exact maxZIndex_le_bringToFront name m

theorem maxZIndex_le_resizeMouseDown (env : Env) (e : Int × Int) (name : String)
    (dir : Dir) (m : Manager) :
    m.maxZIndex ≤ (resizeMouseDown env e name dir m).maxZIndex := by
  unfold resizeMouseDown
  cases hl : List.lookup name m.windows with
  | none => exact le_refl _
  | some w =>
    simp only
    by_cases hmax : w.isMaximized
    · rw [if_pos hmax]
    · rw [if_neg hmax]
      exact maxZIndex_le_bringToFront name m

theorem activeWindow_closeWindow (name : String) (m : Manager) :
    (closeWindow name m).activeWindow = m.activeWindow := by
  unfold closeWindow
  cases List.lookup name m.windows <;> rfl

theorem activeWindow_minimizeWindow (name : String) (m : Manager) :
    (minimizeWindow name m).activeWindow = m.activeWindow := by
  unfold minimizeWindow
  cases List.lookup name m.windows <;> rfl

theorem activeWindow_maximizeWindow (env : Env) (name : String) (m : Manager) :
    (maximizeWindow env name m).activeWindow = m.activeWindow := by
  unfold maximizeWindow
  cases List.lookup name m.windows with
  | none => rfl
  | some w =>
    simp only
    split <;> rfl

theorem activeWindow_dragApply (env : Env) (off e : Int × Int) (name : String)
    (m : Manager) :
    (dragApply env off e name m).activeWindow = m.activeWindow := by
  unfold dragApply
  cases List.lookup name m.windows <;> rfl

theorem activeWindow_handleResize (env : Env) (e : Int × Int) (m : Manager) :
    (handleResize env e m).activeWindow = m.activeWindow := by
  unfold handleResize
  cases m.resizeTarget with
  | none => rfl
  | some name =>
    simp only
    cases List.lookup name m.windows with
    | none => rfl
    | some w =>
      simp only
      cases m.resizeStart with
      | none => cases m.resizeDirection <;> rfl
      | some s => cases m.resizeDirection <;> rfl

theorem activeWindow_onMouseMove (env : Env) (e : Int × Int) (m : Manager) :
    (onMouseMove env e m).activeWindow = m.activeWindow := by
  unfold onMouseMove
  split_ifs with h1 h2
  · rw [activeWindow_handleResize]
  · cases hc : m.currentDraggedWindow with
    | none => rfl
    | some name =>
      simp only
      cases hl : List.lookup name m.windows with
      | none => rfl
      | some w =>
        simp only
        by_cases hmax : w.isMaximized
        · rw [if_pos hmax]
          cases hl1 : List.lookup name (maximizeWindow env name m).windows with
          | none => rw [activeWindow_maximizeWindow]
          | some w1 => rw [activeWindow_dragApply, activeWindow_maximizeWindow]
        · rw [if_neg hmax]
          rw [activeWindow_dragApply]
  · rfl

theorem activeWindow_onMouseUp (m : Manager) :
    (onMouseUp m).activeWindow = m.activeWindow := by
  simp only [onMouseUp]
  split_ifs <;> rfl

theorem activeWindow_ensureAll (env : Env) (m : Manager) :
    (ensureAllWindowsInViewport env m).activeWindow = m.activeWindow := rfl

theorem activeWindow_bringToFront (name : String) (m : Manager) :
    (bringToFront name m).activeWindow =
      (if (List.lookup name m.windows).isSome then some name else m.activeWindow) := by
  unfold bringToFront
  cases List.lookup name m.windows <;> rfl

/-!
Concrete fixtures for witnesses and counterexamples.
-/

/-- The standard viewport used in concrete runs: 1200 by 800, menu bar
30, padding 12 (the source's defaults). -/
def sampleEnv : Env := ⟨1200, 800, 30, 12⟩

/-- An open, active, visible window at (100, 100) sized 400 by 300. -/
def sampleOpenWin : Win :=
  ⟨WState.opened, true, false, false, false, 100, 100, 400, 300, 201, (0, 0), (0, 0)⟩

/-- An open, inactive, visible window behind sampleOpenWin. -/
def sampleBackWin : Win :=
  ⟨WState.opened, false, false, false, false, 200, 150, 400, 300, 150, (0, 0), (0, 0)⟩

/-- A minimized (hence hidden) window. -/
def sampleMinWin : Win :=
  ⟨WState.minimized, false, false, true, true, 100, 100, 400, 300, 150, (0, 0), (0, 0)⟩

/-- A manager with the given registry and dock, no active window, no
session, counter at 201. -/
def baseManager (ws : List (String × Win)) (docks : List (String × Bool)) : Manager :=
  ⟨ws, none, 201, false, (0, 0), none, false, none, none, none, docks⟩

/-- Two-window fixture satisfying the full invariant. -/
def invariantFixture : Manager :=
  baseManager [("a", sampleOpenWin), ("b", sampleBackWin)] [("a", true), ("b", false)]

/-- One-window fixture whose only window is minimized. -/
def minimizedFixture : Manager :=
  baseManager [("a", sampleMinWin)] [("a", true)]

/-- One-window fixture whose only window is closed (fresh from init). -/
def closedFixture : Manager :=
  baseManager [("c", initialWindow)] [("c", false)]

/-- C1 (amended): the claimed invariant, strengthened with the auxiliary
facts that make it inductive (the counter bounds every stackOrder, the
minimized flag matches the state field, registry keys are distinct), is
preserved by open, close, minimize, maximize, toggle, drag-move and
mouse-up unconditionally, and by bringToFront, drag-start and
resize-start whenever the target window is not minimized. The
unrestricted claim is false: bringToFront on a minimized window makes it
active while still minimized (see the counterexample). -/
theorem c1_invariant_preservation
    (env : Env) (name : String) (m : Manager) (e : Int × Int) (dir : Dir)
    (hInv : ManagerInv m) :
    ManagerInv (openWindow env name m) ∧
    ManagerInv (closeWindow name m) ∧
    ManagerInv (minimizeWindow name m) ∧
    ManagerInv (maximizeWindow env name m) ∧
    ManagerInv (toggleWindow env name m) ∧
    ManagerInv (onMouseMove env e m) ∧
    ManagerInv (onMouseUp m) ∧
    ((∀ w, List.lookup name m.windows = some w → w.isMinimized = false) →
      ManagerInv (bringToFront name m) ∧
      ManagerInv (dragMouseDown env e name m) ∧
      ManagerInv (resizeMouseDown env e name dir m)) :=
  ⟨managerInv_openWindow env name m hInv,
   managerInv_closeWindow name m hInv,
   managerInv_minimizeWindow name m hInv,
   managerInv_maximizeWindow env name m hInv,
   managerInv_toggleWindow env name m hInv,
   managerInv_onMouseMove env e m hInv,
   managerInv_onMouseUp m hInv,
   fun hmin =>
     ⟨managerInv_bringToFront_op name m hInv hmin,
      managerInv_dragMouseDown env e name m hInv hmin,
      managerInv_resizeMouseDown env e name dir m hInv hmin⟩⟩

/-- C1 counterexample: a registry whose only window is minimized
satisfies the claimed invariant, yet after bringToFront on that window
the invariant is violated (the window is active while minimized), so the
invariant is not preserved by every operation as claimed. -/
theorem c1_counterexample :
    ClaimedInvariant minimizedFixture ∧
    ¬ ClaimedInvariant (bringToFront "a" minimizedFixture) := by
  decide

/-- C1 witness: the amended preservation theorem applied to a concrete
two-window manager. -/
theorem c1_witness :
    ManagerInv invariantFixture ∧
    ManagerInv (openWindow sampleEnv "a" invariantFixture) ∧
    ManagerInv (closeWindow "a" invariantFixture) ∧
    ManagerInv (minimizeWindow "a" invariantFixture) ∧
    ManagerInv (maximizeWindow sampleEnv "a" invariantFixture) ∧
    ManagerInv (toggleWindow sampleEnv "a" invariantFixture) ∧
    ManagerInv (onMouseMove sampleEnv (40, 40) invariantFixture) ∧
    ManagerInv (onMouseUp invariantFixture) ∧
    ManagerInv (bringToFront "a" invariantFixture) ∧
    ManagerInv (dragMouseDown sampleEnv (40, 40) "a" invariantFixture) ∧
    ManagerInv (resizeMouseDown sampleEnv (40, 40) "a" Dir.left invariantFixture) := by
  have h := c1_invariant_preservation sampleEnv "a" invariantFixture (40, 40) Dir.left
    (by decide)
  have hg := h.2.2.2.2.2.2.2 (by decide)
  exact ⟨by decide, h.1, h.2.1, h.2.2.1, h.2.2.2.1, h.2.2.2.2.1, h.2.2.2.2.2.1,
    h.2.2.2.2.2.2.1, hg.1, hg.2.1, hg.2.2⟩

/-- C2: on a registry whose stack orders are bounded by the counter,
bringToFront of a registered window increments the counter by one,
makes exactly that window active with the new counter value as its
stackOrder (strictly above every other window, which is deactivated),
and the new value was never carried by any window before (no reuse);
every operation leaves the counter no smaller than before, and the
constructor seeds it at 200. -/
theorem c2_bringToFront_stacking
    (name : String) (m : Manager) (w : Win)
    (hz : ZBounded m.windows m.maxZIndex)
    (hl : List.lookup name m.windows = some w) :
    (bringToFront name m).maxZIndex = m.maxZIndex + 1 ∧
    List.lookup name (bringToFront name m).windows =
      some { w with isActive := true, zIndex := m.maxZIndex + 1 } ∧
    (∀ p ∈ (bringToFront name m).windows, p.1 ≠ name →
      p.2.zIndex < m.maxZIndex + 1 ∧ p.2.isActive = false) ∧
    (∀ p ∈ m.windows, p.2.zIndex ≠ m.maxZIndex + 1) ∧
    (∀ (env : Env) (e : Int × Int) (dir : Dir) (name' : String) (m' : Manager),
      m'.maxZIndex ≤ (openWindow env name' m').maxZIndex ∧
      m'.maxZIndex ≤ (closeWindow name' m').maxZIndex ∧
      m'.maxZIndex ≤ (minimizeWindow name' m').maxZIndex ∧
      m'.maxZIndex ≤ (maximizeWindow env name' m').maxZIndex ∧
      m'.maxZIndex ≤ (toggleWindow env name' m').maxZIndex ∧
      m'.maxZIndex ≤ (bringToFront name' m').maxZIndex ∧
      m'.maxZIndex ≤ (onMouseMove env e m').maxZIndex ∧
      m'.maxZIndex ≤ (onMouseUp m').maxZIndex ∧
      m'.maxZIndex ≤ (dragMouseDown env e name' m').maxZIndex ∧
      m'.maxZIndex ≤ (resizeMouseDown env e name' dir m').maxZIndex) ∧
    (∀ names docks, (initialManager names docks).maxZIndex = 200) := by
  refine ⟨?_, bringToFront_lookup hl, ?_, ?_, ?_, fun names docks => rfl⟩
  · unfold bringToFront
    rw [hl]
  · intro p hp hpk
    have hw' : (bringToFront name m).windows = mapVals (fun k ww =>
        if k = name then { ww with isActive := true, zIndex := m.maxZIndex + 1 }
        else { ww with isActive := false }) m.windows := by
      unfold bringToFront
      rw [hl]
    rw [hw'] at hp
    rcases mem_mapVals.mp hp with ⟨p0, hp0, rfl⟩
    simp only at hpk
    have hb := hz p0 hp0
    constructor
    · simp only [if_neg hpk]
      omega
    · simp [hpk]
  · intro p hp
    have := hz p hp
    omega
  · intro env e dir name' m'
    exact ⟨maxZIndex_le_openWindow env name' m',
      le_of_eq (maxZIndex_closeWindow name' m').symm,
      le_of_eq (maxZIndex_minimizeWindow name' m').symm,
      le_of_eq (maxZIndex_maximizeWindow env name' m').symm,
      maxZIndex_le_toggleWindow env name' m',
      maxZIndex_le_bringToFront name' m',
      maxZIndex_le_onMouseMove env e m',
      le_of_eq (maxZIndex_onMouseUp m').symm,
      maxZIndex_le_dragMouseDown env e name' m',
      maxZIndex_le_resizeMouseDown env e name' dir m'⟩

/-- C2 witness: the stacking theorem applied to the concrete two-window
manager. -/
theorem c2_witness :
    ZBounded invariantFixture.windows invariantFixture.maxZIndex ∧
    (bringToFront "a" invariantFixture).maxZIndex = invariantFixture.maxZIndex + 1 ∧
    List.lookup "a" (bringToFront "a" invariantFixture).windows =
      some { sampleOpenWin with
             isActive := true,
             zIndex := invariantFixture.maxZIndex + 1 } ∧
    (∀ p ∈ (bringToFront "a" invariantFixture).windows, p.1 ≠ "a" →
      p.2.zIndex < invariantFixture.maxZIndex + 1 ∧ p.2.isActive = false) ∧
    (∀ p ∈ invariantFixture.windows, p.2.zIndex ≠ invariantFixture.maxZIndex + 1) := by
  have h := c2_bringToFront_stacking "a" invariantFixture sampleOpenWin
    (by decide) (by decide)
  exact ⟨by decide, h.1, h.2.1, h.2.2.1, h.2.2.2.1⟩

/-- C7: every lifecycle and stacking operation is a total function, and
on a name absent from the registry each of open, close, minimize,
maximize, toggle and bringToFront returns the manager unchanged: the
registry, every window, the active-window reference, the counter and the
dock are all untouched. -/
theorem c7_unknown_name_noop (env : Env) (name : String) (m : Manager)
    (h : List.lookup name m.windows = none) :
    openWindow env name m = m ∧ closeWindow name m = m ∧
    minimizeWindow name m = m ∧ maximizeWindow env name m = m ∧
    toggleWindow env name m = m ∧ bringToFront name m = m := by
  refine ⟨?_, ?_, ?_, ?_, ?_, ?_⟩
  · unfold openWindow
    rw [h]
  · unfold closeWindow
    rw [h]
  · unfold minimizeWindow
    rw [h]
  · unfold maximizeWindow
    rw [h]
  · unfold toggleWindow
    rw [h]
  · unfold bringToFront
    rw [h]

/-- C7 witness: the no-op theorem applied to a name not in the concrete
registry. -/
theorem c7_witness :
    List.lookup "zzz" invariantFixture.windows = none ∧
    openWindow sampleEnv "zzz" invariantFixture = invariantFixture ∧
    closeWindow "zzz" invariantFixture = invariantFixture ∧
    minimizeWindow "zzz" invariantFixture = invariantFixture ∧
    maximizeWindow sampleEnv "zzz" invariantFixture = invariantFixture ∧
    toggleWindow sampleEnv "zzz" invariantFixture = invariantFixture ∧
    bringToFront "zzz" invariantFixture = invariantFixture := by
  have h := c7_unknown_name_noop sampleEnv "zzz" invariantFixture (by decide)
  exact ⟨by decide, h.1, h.2.1, h.2.2.1, h.2.2.2.1, h.2.2.2.2.1, h.2.2.2.2.2⟩

/-- C9: minimize on any registered window, with no precondition on the
prior state, sets the registry state to minimized, sets the minimized
class and clears active and maximized, and turns the dock indicator on
(when a dock icon exists); in particular this applies to a closed
window. -/
theorem c9_minimize_unconditional (name : String) (m : Manager) (w : Win)
    (hl : List.lookup name m.windows = some w) :
    List.lookup name (minimizeWindow name m).windows =
      some { w with
             isMinimized := true, isActive := false, isMaximized := false,
             state := WState.minimized } ∧
    List.lookup name (minimizeWindow name m).dockIcons =
      (List.lookup name m.dockIcons).map (fun _ => true) := by
  unfold minimizeWindow
  rw [hl]
  simp only
  constructor
  · show List.lookup name (updateWin name (fun _ => { w with
      isMinimized := true, isActive := false, isMaximized := false,
      state := WState.minimized }) m.windows) =
      some { w with
             isMinimized := true, isActive := false, isMaximized := false,
             state := WState.minimized }
    rw [lookup_updateWin_self, hl]
    rfl
  · show List.lookup name (mapVals (fun k b => if k = name then true else b)
        m.dockIcons) = (List.lookup name m.dockIcons).map (fun _ => true)
    rw [lookup_mapVals]
    cases List.lookup name m.dockIcons <;> simp

/-- C9 witness: minimizing a closed window transitions it to minimized
and turns its dock indicator on. -/
theorem c9_witness :
    List.lookup "c" closedFixture.windows = some initialWindow ∧
    List.lookup "c" (minimizeWindow "c" closedFixture).windows =
      some { initialWindow with
             isMinimized := true, isActive := false,
             isMaximized := false, state := WState.minimized } ∧
    List.lookup "c" (minimizeWindow "c" closedFixture).dockIcons =
      (List.lookup "c" closedFixture.dockIcons).map (fun _ => true) := by
  have h := c9_minimize_unconditional "c" closedFixture initialWindow (by decide)
  exact ⟨by decide, h.1, h.2⟩

/-- C10: close and minimize (and likewise maximize, the resize and drag
move handlers, mouse-up and the containment pass) never write the
manager's recorded active-window reference, so after closing or
minimizing the active window the reference still names it; bringToFront
is the only writer, setting it to the target name exactly when the
target is registered. -/
theorem c10_activeWindow_frame (env : Env) (name : String) (m : Manager)
    (e : Int × Int) :
    (closeWindow name m).activeWindow = m.activeWindow ∧
    (minimizeWindow name m).activeWindow = m.activeWindow ∧
    (maximizeWindow env name m).activeWindow = m.activeWindow ∧
    (handleResize env e m).activeWindow = m.activeWindow ∧
    (onMouseMove env e m).activeWindow = m.activeWindow ∧
    (onMouseUp m).activeWindow = m.activeWindow ∧
    (ensureAllWindowsInViewport env m).activeWindow = m.activeWindow ∧
    (bringToFront name m).activeWindow =
      (if (List.lookup name m.windows).isSome then some name
       else m.activeWindow) :=
  ⟨activeWindow_closeWindow name m, activeWindow_minimizeWindow name m,
   activeWindow_maximizeWindow env name m, activeWindow_handleResize env e m,
   activeWindow_onMouseMove env e m, activeWindow_onMouseUp m,
   activeWindow_ensureAll env m, activeWindow_bringToFront name m⟩

theorem displayedRect_plain (env : Env) (w : Win) (hm : w.isMaximized = false)
    (hh : w.hidden = false) :
    displayedRect env w = ⟨w.left, w.top, w.width, w.height⟩ := by
  unfold displayedRect
  simp [hm, hh]

/-- Round-tripping the two maximize arms on a visible non-maximized
window restores its geometry to the containment-pass normalization of
the original, while the restore bounds keep the captured values. -/
theorem restore_capture (env : Env) (w : Win) (hmax : w.isMaximized = false)
    (hh : w.hidden = false) :
    restoreWin env (captureWin env w) =
      { ensureWindowInViewport env w with
        originalPosition := (w.left, w.top),
        originalSize := (w.width, w.height) } := by
  obtain ⟨st, act, mx, mn, hd, l, t, wd, hgt, z, op, os⟩ := w
  simp only at hmax hh
  subst hmax
  subst hh
  unfold restoreWin captureWin displayedRect ensureWindowInViewport clamp
  simp only [Bool.false_eq_true, if_false, Bool.or_self]
  split_ifs <;> first | rfl | simp_all

/-- C3 (amended): for a drag-move on a visible dragged window, when the
resulting window fits the viewport (its width is at most the viewport
width and its height fits below the menu bar), the resulting position is
clamped into left in [0, viewportWidth - width] and top in
[menuBarHeight, viewportHeight - height]. Without the fit proviso the
claim is false: an oversized window is pinned at left 0 / top
menuBarHeight, above the empty claimed interval (see the
counterexample). -/
theorem c3_drag_clamp
    (env : Env) (e : Int × Int) (m : Manager) (name : String) (w w_r : Win)
    (hr : m.resizing = false)
    (hd : m.dragging = true)
    (hc : m.currentDraggedWindow = some name)
    (hl : List.lookup name m.windows = some w)
    (hh : w.hidden = false)
    (hl2 : List.lookup name (onMouseMove env e m).windows = some w_r)
    (hfw : w_r.width ≤ env.viewportWidth)
    (hfh : env.menuBarHeight + w_r.height ≤ env.viewportHeight) :
    0 ≤ w_r.left ∧ w_r.left ≤ env.viewportWidth - w_r.width ∧
    env.menuBarHeight ≤ w_r.top ∧ w_r.top ≤ env.viewportHeight - w_r.height := by
  have hcond1 : ¬ ((m.resizing && m.resizeTarget.isSome) = true) := by
    rw [hr]
    simp
  have hcond2 : (m.dragging && m.currentDraggedWindow.isSome) = true := by
    rw [hd, hc]
    rfl
  unfold onMouseMove at hl2
  rw [if_neg hcond1, if_pos hcond2, hc] at hl2
  simp only at hl2
  rw [hl] at hl2
  simp only at hl2
  by_cases hmax : w.isMaximized
  · rw [if_pos hmax] at hl2
    have hl1 : List.lookup name (maximizeWindow env name m).windows =
        some (restoreWin env w) := by
      rw [maximizeWindow_lookup hl, if_pos hmax]
    rw [hl1] at hl2
    simp only at hl2
    rw [dragApply_lookup hl1] at hl2
    rw [displayedRect_plain env (restoreWin env w) (restoreWin_isMaximized env w)
      (by rw [restoreWin_hidden]; exact hh)] at hl2
    cases Option.some.inj hl2
    simp only at hfw hfh ⊢
    refine ⟨by omega, by omega, by omega, by omega⟩
  · rw [if_neg hmax] at hl2
    rw [dragApply_lookup hl] at hl2
    rw [displayedRect_plain env w (by simpa using hmax) hh] at hl2
    cases Option.some.inj hl2
    simp only at hfw hfh ⊢
    refine ⟨by omega, by omega, by omega, by omega⟩

/-- Narrow viewport for the drag-clamp counterexample. -/
def c3Env : Env := ⟨400, 800, 30, 12⟩

/-- A visible window wider than the c3Env viewport. -/
def c3WideWin : Win :=
  ⟨WState.opened, true, false, false, false, 100, 100, 500, 300, 201, (0, 0), (0, 0)⟩

/-- Manager mid-drag on the oversized window. -/
def c3BadManager : Manager :=
  { baseManager [("a", c3WideWin)] [("a", true)] with
    dragging := true, currentDraggedWindow := some "a", dragOffset := (10, 10) }

/-- Manager mid-drag on a normally sized window. -/
def c3GoodManager : Manager :=
  { baseManager [("a", sampleOpenWin)] [("a", true)] with
    dragging := true, currentDraggedWindow := some "a", dragOffset := (10, 10) }

/-- The window produced by the witness drag-move. -/
def c3ResultWin : Win := { sampleOpenWin with left := 40, top := 40 }

/-- C3 counterexample: dragging a 500-wide window in a 400-wide viewport
leaves it at left 0, but the claimed interval [0, 400 - 500] is empty,
so left is not at most viewportWidth - width. -/
theorem c3_counterexample :
    (List.lookup "a" (onMouseMove c3Env (50, 50) c3BadManager).windows).map
      (fun w => (w.left, w.width)) = some (0, 500) ∧
    ¬ ((0 : Int) ≤ c3Env.viewportWidth - 500) := by
  decide

/-- C3 witness: the amended clamp theorem applied to a concrete in-range
drag. -/
theorem c3_witness :
    c3GoodManager.resizing = false ∧ c3GoodManager.dragging = true ∧
    c3GoodManager.currentDraggedWindow = some "a" ∧
    List.lookup "a" c3GoodManager.windows = some sampleOpenWin ∧
    sampleOpenWin.hidden = false ∧
    List.lookup "a" (onMouseMove sampleEnv (50, 50) c3GoodManager).windows =
      some c3ResultWin ∧
    c3ResultWin.width ≤ sampleEnv.viewportWidth ∧
    sampleEnv.menuBarHeight + c3ResultWin.height ≤ sampleEnv.viewportHeight ∧
    (0 ≤ c3ResultWin.left ∧
      c3ResultWin.left ≤ sampleEnv.viewportWidth - c3ResultWin.width ∧
      sampleEnv.menuBarHeight ≤ c3ResultWin.top ∧
      c3ResultWin.top ≤ sampleEnv.viewportHeight - c3ResultWin.height) := by
  refine ⟨rfl, rfl, rfl, by decide, rfl, by decide, by decide, by decide, ?_⟩
  exact c3_drag_clamp sampleEnv (50, 50) c3GoodManager "a" sampleOpenWin
    c3ResultWin rfl rfl rfl (by decide) rfl (by decide) (by decide) (by decide)

theorem handleResize_lookup {env : Env} {e : Int × Int} {m : Manager}
    {name : String} {start : RStart} {dir : Dir} {w : Win}
    (ht : m.resizeTarget = some name)
    (hs : m.resizeStart = some start)
    (hd : m.resizeDirection = some dir)
    (hl : List.lookup name m.windows = some w) :
    List.lookup name (handleResize env e m).windows =
      some { w with
             width := (resizeGeom env start dir e).width,
             height := (resizeGeom env start dir e).height,
             left := (resizeGeom env start dir e).left,
             top := (resizeGeom env start dir e).top } := by
  unfold handleResize
  rw [ht]
  simp only
  rw [hl]
  simp only
  rw [hs, hd]
  simp only
  show List.lookup name (updateWin name (fun ww =>
    { ww with
      width := (resizeGeom env start dir e).width,
      height := (resizeGeom env start dir e).height,
      left := (resizeGeom env start dir e).left,
      top := (resizeGeom env start dir e).top }) m.windows) =
    some { w with
      width := (resizeGeom env start dir e).width,
      height := (resizeGeom env start dir e).height,
      left := (resizeGeom env start dir e).left,
      top := (resizeGeom env start dir e).top }
  rw [lookup_updateWin_self, hl]
  rfl

/-- C4 (amended): the minimum-dimension clamp applies right after the
directional adjustment, so whenever the adjusted box already lies within
the viewport (left at least 0, top at least the menu bar, right and
bottom edges inside), no containment step fires: the handler applies
exactly the adjusted geometry and the resulting width and height are at
least the computed minimums. Without that proviso the claim is false:
the subsequent viewport containment steps (which the spec itself orders
after the minimum clamp) can shrink the result below the minimums (see
the counterexample). -/
theorem c4_resize_minimums
    (env : Env) (start : RStart) (dir : Dir) (e : Int × Int)
    (h0 : 0 ≤ (resizeAdjusted env start dir e).left)
    (h1 : env.menuBarHeight ≤ (resizeAdjusted env start dir e).top)
    (h2 : (resizeAdjusted env start dir e).left +
      (resizeAdjusted env start dir e).width ≤ env.viewportWidth)
    (h3 : (resizeAdjusted env start dir e).top +
      (resizeAdjusted env start dir e).height ≤ env.viewportHeight) :
    resizeGeom env start dir e = resizeAdjusted env start dir e ∧
    (getMinDimensions env).1 ≤ (resizeGeom env start dir e).width ∧
    (getMinDimensions env).2 ≤ (resizeGeom env start dir e).height ∧
    (∀ (m : Manager) (name : String) (w : Win),
      m.resizeTarget = some name → m.resizeStart = some start →
      m.resizeDirection = some dir → List.lookup name m.windows = some w →
      List.lookup name (handleResize env e m).windows =
        some { w with
               width := (resizeGeom env start dir e).width,
               height := (resizeGeom env start dir e).height,
               left := (resizeGeom env start dir e).left,
               top := (resizeGeom env start dir e).top }) := by
  have hc1 : ¬ ((resizeAdjusted env start dir e).left < 0) := by omega
  have hc2 : ¬ ((resizeAdjusted env start dir e).top < env.menuBarHeight) := by
    omega
  have hc3 : ¬ (env.viewportWidth < (resizeAdjusted env start dir e).left +
      (resizeAdjusted env start dir e).width) := by omega
  have hc4 : ¬ (env.viewportHeight < (resizeAdjusted env start dir e).top +
      (resizeAdjusted env start dir e).height) := by omega
  have hgeq : resizeGeom env start dir e = resizeAdjusted env start dir e := by
    unfold resizeGeom
    simp [hc1, hc2, hc3, hc4]
  have hminw : (getMinDimensions env).1 ≤ (resizeAdjusted env start dir e).width := by
    unfold resizeAdjusted
    simp
  have hminh : (getMinDimensions env).2 ≤ (resizeAdjusted env start dir e).height := by
    unfold resizeAdjusted
    simp
  refine ⟨hgeq, ?_, ?_, ?_⟩
  · rw [hgeq]
    exact hminw
  · rw [hgeq]
    exact hminh
  · intro mm nm w ht hs hdr hl
    exact handleResize_lookup ht hs hdr hl

/-- Resize anchor for the counterexample: a contained 400 by 300 window
at (12, 200) grabbed by its left handle at pointer (12, 400). -/
def c4Start : RStart := ⟨12, 400, 400, 300, 12, 200⟩

/-- The window matching c4Start. -/
def c4Win : Win :=
  ⟨WState.opened, true, false, false, false, 12, 200, 400, 300, 201, (0, 0), (0, 0)⟩

/-- Manager mid-resize from the left handle. -/
def c4Manager : Manager :=
  { baseManager [("a", c4Win)] [("a", true)] with
    resizing := true, resizeTarget := some "a",
    resizeDirection := some Dir.left, resizeStart := some c4Start }

/-- C4 counterexample: dragging the left handle to pointer x 900 pins
the right-edge clamp and yields width 300, strictly below the computed
minimum width 400 for this viewport, both in the geometry computation
and on the handled window. -/
theorem c4_counterexample :
    (resizeGeom sampleEnv c4Start Dir.left (900, 400)).width = 300 ∧
    (getMinDimensions sampleEnv).1 = 400 ∧
    (resizeGeom sampleEnv c4Start Dir.left (900, 400)).width <
      (getMinDimensions sampleEnv).1 ∧
    (List.lookup "a" (handleResize sampleEnv (900, 400) c4Manager).windows).map
      Win.width = some 300 := by
  decide

/-- C4 witness: the amended theorem applied to an in-viewport resize
from the right handle. -/
theorem c4_witness :
    0 ≤ (resizeAdjusted sampleEnv ⟨100, 100, 400, 300, 100, 100⟩ Dir.right
      (150, 100)).left ∧
    sampleEnv.menuBarHeight ≤ (resizeAdjusted sampleEnv
      ⟨100, 100, 400, 300, 100, 100⟩ Dir.right (150, 100)).top ∧
    (resizeAdjusted sampleEnv ⟨100, 100, 400, 300, 100, 100⟩ Dir.right
      (150, 100)).left + (resizeAdjusted sampleEnv
      ⟨100, 100, 400, 300, 100, 100⟩ Dir.right (150, 100)).width ≤
      sampleEnv.viewportWidth ∧
    (resizeAdjusted sampleEnv ⟨100, 100, 400, 300, 100, 100⟩ Dir.right
      (150, 100)).top + (resizeAdjusted sampleEnv
      ⟨100, 100, 400, 300, 100, 100⟩ Dir.right (150, 100)).height ≤
      sampleEnv.viewportHeight ∧
    resizeGeom sampleEnv ⟨100, 100, 400, 300, 100, 100⟩ Dir.right (150, 100) =
      resizeAdjusted sampleEnv ⟨100, 100, 400, 300, 100, 100⟩ Dir.right
        (150, 100) ∧
    (getMinDimensions sampleEnv).1 ≤ (resizeGeom sampleEnv
      ⟨100, 100, 400, 300, 100, 100⟩ Dir.right (150, 100)).width ∧
    (getMinDimensions sampleEnv).2 ≤ (resizeGeom sampleEnv
      ⟨100, 100, 400, 300, 100, 100⟩ Dir.right (150, 100)).height := by
  have h := c4_resize_minimums sampleEnv ⟨100, 100, 400, 300, 100, 100⟩
    Dir.right (150, 100) (by decide) (by decide) (by decide) (by decide)
  exact ⟨by decide, by decide, by decide, by decide, h.1, h.2.1, h.2.2.1⟩

/-- C5 (amended): maximizing then restoring a visible non-maximized
window whose geometry is already a fixed point of the viewport
containment pass returns it to exactly its pre-maximize position and
size. The unrestricted claim (any geometry) is false: the restore arm
re-runs the containment pass, which moves a window whose pre-maximize
geometry was not normalized, such as a window dragged to left 0 (see
the counterexample). -/
theorem c5_maximize_restore_roundtrip
    (env : Env) (name : String) (m : Manager) (w : Win)
    (hl : List.lookup name m.windows = some w)
    (hmax : w.isMaximized = false)
    (hh : w.hidden = false)
    (hfix : ensureWindowInViewport env w = w) :
    ∃ w', List.lookup name
        (maximizeWindow env name (maximizeWindow env name m)).windows = some w' ∧
      w'.left = w.left ∧ w'.top = w.top ∧ w'.width = w.width ∧
      w'.height = w.height ∧ w'.isMaximized = false := by
  have h1 : List.lookup name (maximizeWindow env name m).windows =
      some (captureWin env w) := by
    rw [maximizeWindow_lookup hl, if_neg (by simp [hmax])]
  have hcm : (captureWin env w).isMaximized = true := rfl
  have h2 : List.lookup name
      (maximizeWindow env name (maximizeWindow env name m)).windows =
      some (restoreWin env (captureWin env w)) := by
    rw [maximizeWindow_lookup h1, if_pos hcm]
  refine ⟨restoreWin env (captureWin env w), h2, ?_, ?_, ?_, ?_,
    restoreWin_isMaximized env _⟩ <;>
    rw [restore_capture env w hmax hh, hfix]

/-- A visible window parked at left 0 (reachable by dragging, whose x
clamp allows 0). -/
def c5Win : Win := { sampleOpenWin with left := 0 }

/-- Manager holding the window at left 0. -/
def c5Manager : Manager := baseManager [("a", c5Win)] [("a", true)]

/-- C5 counterexample: maximize then restore moves the window from left
0 to left 12 (the containment pass floor), so the round trip is not the
identity on arbitrary geometry. -/
theorem c5_counterexample :
    c5Win.left = 0 ∧
    (List.lookup "a" (maximizeWindow sampleEnv "a"
      (maximizeWindow sampleEnv "a" c5Manager)).windows).map
      (fun w => (w.left, w.top)) = some (12, 100) ∧
    (12 : Int) ≠ 0 := by
  decide

/-- C5 witness: the round trip applied to a window already normalized by
the containment pass. -/
theorem c5_witness :
    List.lookup "a" invariantFixture.windows = some sampleOpenWin ∧
    sampleOpenWin.isMaximized = false ∧ sampleOpenWin.hidden = false ∧
    ensureWindowInViewport sampleEnv sampleOpenWin = sampleOpenWin ∧
    (∃ w', List.lookup "a" (maximizeWindow sampleEnv "a"
        (maximizeWindow sampleEnv "a" invariantFixture)).windows = some w' ∧
      w'.left = sampleOpenWin.left ∧ w'.top = sampleOpenWin.top ∧
      w'.width = sampleOpenWin.width ∧ w'.height = sampleOpenWin.height ∧
      w'.isMaximized = false) := by
  refine ⟨by decide, rfl, rfl, by decide, ?_⟩
  exact c5_maximize_restore_roundtrip sampleEnv "a" invariantFixture
    sampleOpenWin (by decide) rfl rfl (by decide)

/-- C8 (amended): at drag start the window's geometry is untouched, and
originalPosition is written only when the window is NOT maximized (set
to its measured top-left); when the window is maximized the stored
restore bounds are left unchanged, exactly opposite to the claim's
direction. The claim as stated is refuted by the counterexample: on a
maximized window with stale restore bounds, drag start leaves them
stale instead of recording the pre-drag (full-viewport) geometry. -/
theorem c8_dragStart_restoreBounds
    (env : Env) (e : Int × Int) (name : String) (m : Manager) (w : Win)
    (hl : List.lookup name m.windows = some w) :
    ∃ w', List.lookup name (dragMouseDown env e name m).windows = some w' ∧
      w'.originalPosition = (if w.isMaximized then w.originalPosition
        else ((displayedRect env w).left, (displayedRect env w).top)) ∧
      w'.left = w.left ∧ w'.top = w.top ∧ w'.width = w.width ∧
      w'.height = w.height := by
  unfold dragMouseDown
  rw [hl]
  simp only
  by_cases hmax : w.isMaximized
  · rw [if_pos hmax, if_pos hmax]
    refine ⟨{ w with isActive := true, zIndex := m.maxZIndex + 1 },
      ?_, rfl, rfl, rfl, rfl, rfl⟩
    show List.lookup name (bringToFront name m).windows =
      some { w with isActive := true, zIndex := m.maxZIndex + 1 }
    exact bringToFront_lookup hl
  · rw [if_neg hmax, if_neg hmax]
    refine ⟨{ w with
        isActive := true, zIndex := m.maxZIndex + 1,
        originalPosition := ((displayedRect env w).left,
          (displayedRect env w).top) }, ?_, rfl, rfl, rfl, rfl, rfl⟩
    show List.lookup name (updateWin name (fun ww =>
        { ww with originalPosition := ((displayedRect env w).left,
            (displayedRect env w).top) }) (bringToFront name m).windows) =
      some { w with
        isActive := true, zIndex := m.maxZIndex + 1,
        originalPosition := ((displayedRect env w).left,
          (displayedRect env w).top) }
    rw [lookup_updateWin_self, bringToFront_lookup hl]
    rfl

/-- A maximized window whose restore bounds (5, 5) were captured when it
was maximized, displayed full-viewport at (0, 30). -/
def c8Win : Win :=
  ⟨WState.opened, false, true, false, false, 5, 5, 400, 300, 201, (5, 5), (400, 300)⟩

/-- Manager holding the maximized window. -/
def c8Manager : Manager := baseManager [("a", c8Win)] [("a", true)]

/-- C8 counterexample: drag start on the maximized window leaves
originalPosition at (5, 5); the pre-drag displayed geometry starts at
(0, 30), so the pre-drag geometry is NOT recorded as the restore
bounds. -/
theorem c8_counterexample :
    (List.lookup "a" (dragMouseDown sampleEnv (100, 100) "a" c8Manager).windows).map
      Win.originalPosition = some (5, 5) ∧
    ((displayedRect sampleEnv c8Win).left, (displayedRect sampleEnv c8Win).top) =
      ((0 : Int), (30 : Int)) ∧
    ((5 : Int), (5 : Int)) ≠ ((0 : Int), (30 : Int)) := by
  decide

/-- C8 witness: the amended recording rule applied to a non-maximized
window. -/
theorem c8_witness :
    List.lookup "a" invariantFixture.windows = some sampleOpenWin ∧
    (∃ w', List.lookup "a"
        (dragMouseDown sampleEnv (60, 60) "a" invariantFixture).windows =
        some w' ∧
      w'.originalPosition = (if sampleOpenWin.isMaximized then
        sampleOpenWin.originalPosition
        else ((displayedRect sampleEnv sampleOpenWin).left,
          (displayedRect sampleEnv sampleOpenWin).top)) ∧
      w'.left = sampleOpenWin.left ∧ w'.top = sampleOpenWin.top ∧
      w'.width = sampleOpenWin.width ∧ w'.height = sampleOpenWin.height) :=
  ⟨by decide, c8_dragStart_restoreBounds sampleEnv (60, 60) "a"
    invariantFixture sampleOpenWin (by decide)⟩
